import Mathlib

/-!
Verification of the client-side business logic of the marketplace
repository (product pages, cart, checkout with discount codes, seller
payouts, admin routing).  Every data operation in the source is a call
against an external backend exposing list/create/update/delete; here the
backend is modelled as an explicit record of collections and each handler
is translated into a pure state-transition function that also returns the
list of network calls it performed, in order.  Money amounts are modelled
as rationals, quantities and stock as integers, timestamps as integers.
-/

namespace Marketplace

/-- Network call performed against the hosted backend: either a read
(auth.me or a db list) or a write (db create, update or delete) on a
named collection. -/
inductive NetCall where
  | read (collection : String) : NetCall
  | write (collection : String) : NetCall
deriving DecidableEq, Repr

/-- True when the call mutates backend state. -/
def NetCall.isWrite : NetCall → Bool
  | .read _ => false
  | .write _ => true

/-- A trace contains no state-mutating call. -/
def noWrites (tr : List NetCall) : Prop :=
  ∀ c ∈ tr, c.isWrite = false

instance (tr : List NetCall) : Decidable (noWrites tr) := by
  unfold noWrites; infer_instance

/-- JavaScript toUpperCase on the character sequence of a string. -/
def jsToUpper (s : String) : String :=
  ⟨s.data.map Char.toUpper⟩

/-- JavaScript toLowerCase on the character sequence of a string. -/
def jsToLower (s : String) : String :=
  ⟨s.data.map Char.toLower⟩

/-- JavaScript trim: whitespace stripped from both ends. -/
def jsTrim (s : String) : String :=
  ⟨((s.data.dropWhile Char.isWhitespace).reverse.dropWhile Char.isWhitespace).reverse⟩

/-- Product row as stored in the products collection (snake_case field
names as returned by the backend). -/
structure Product where
  id : String
  name : String
  brand : String
  price : ℚ
  image_url : String
  stock_quantity : Int
  condition : String
  category : String
  user_id : String
deriving DecidableEq, Repr

/-- Product snapshot after the camelCase remapping performed by the cart
and checkout pages when joining a cart row to its product. -/
structure ProductSnap where
  id : String
  name : String
  brand : String
  price : ℚ
  imageUrl : String
  stockQuantity : Int
  condition : String
  category : String
deriving DecidableEq, Repr

/-- Field remapping from a stored product row to the view-model snapshot,
as written in Cart.loadCartItems and Checkout.loadCartItems. -/
def mapProduct (p : Product) : ProductSnap :=
  { id := p.id
    name := p.name
    brand := p.brand
    price := p.price
    imageUrl := p.image_url
    stockQuantity := p.stock_quantity
    condition := p.condition
    category := p.category }

/-- Cart row as stored in the cart_items collection. -/
structure CartRow where
  id : String
  user_id : String
  product_id : String
  quantity : Int
deriving DecidableEq, Repr

/-- Cart line item held in component state: the stored row joined to its
product snapshot (none when the product lookup failed). -/
structure CartItem where
  id : String
  userId : String
  productId : String
  quantity : Int
  product : Option ProductSnap
deriving DecidableEq, Repr

/-- Order record created at checkout. -/
structure Order where
  id : String
  user_id : String
  total_amount : ℚ
  subtotal_amount : ℚ
  discount_amount : ℚ
  discount_code : Option String
  status : String
  shipping_address : String
deriving DecidableEq, Repr

/-- Order line item record created at checkout. -/
structure OrderItem where
  id : String
  order_id : String
  product_id : String
  quantity : Int
  price : ℚ
deriving DecidableEq, Repr

/-- Seller earnings record: created at checkout with a 5 percent platform
commission, consumed by the payouts panel. -/
structure SellerEarning where
  id : String
  sellerId : String
  orderId : String
  productId : String
  quantity : Int
  unitPrice : ℚ
  totalEarnings : ℚ
  commissionRate : ℚ
  commissionAmount : ℚ
  netEarnings : ℚ
  status : String
deriving DecidableEq, Repr

/-- Kind of a discount code. -/
inductive DiscountType where
  | percentage : DiscountType
  | fixed : DiscountType
deriving DecidableEq, Repr

/-- Discount code record.  maxUses is 0 when no cap is set, matching the
JavaScript truthiness test on the stored value; expiresAt is none when
the code never expires. -/
structure DiscountCodeRec where
  id : String
  code : String
  description : String
  discountType : DiscountType
  discountValue : ℚ
  minimumOrderAmount : ℚ
  maxUses : Nat
  currentUses : Nat
  expiresAt : Option Int
  isActive : Bool
deriving DecidableEq, Repr

/-- Usage record linking a discount code to the user and order that
redeemed it. -/
structure DiscountUse where
  id : String
  discountCodeId : String
  userId : String
  orderId : String
  discountAmount : ℚ
deriving DecidableEq, Repr

/-- Payout request record created by the seller payouts panel. -/
structure PayoutRequestRec where
  id : String
  sellerId : String
  amount : ℚ
  status : String
  paymentMethod : String
deriving DecidableEq, Repr

/-- Payout item allocating part of a payout request against one
seller-earnings record. -/
structure PayoutItemRec where
  id : String
  payoutRequestId : String
  sellerEarningId : String
  amount : ℚ
deriving DecidableEq, Repr

/-- The backend state: one list per collection touched by the pages under
verification. -/
structure Backend where
  products : List Product
  cartItems : List CartRow
  orders : List Order
  orderItems : List OrderItem
  sellerEarnings : List SellerEarning
  discountCodes : List DiscountCodeRec
  discountCodeUses : List DiscountUse
  payoutRequests : List PayoutRequestRec
  payoutItems : List PayoutItemRec
deriving DecidableEq, Repr

/-- Discount widget: lookup of the entered code, uppercased, restricted to
active codes, first match only (the list call uses limit 1). -/
def lookupActiveCode (codes : List DiscountCodeRec) (entered : String) :
    Option DiscountCodeRec :=
  codes.find? (fun c => c.code == (jsToUpper entered) && c.isActive)

/-- Expiry test of the widget: an expiresAt value is present and lies
strictly in the past. -/
def isExpired (now : Int) (dc : DiscountCodeRec) : Bool :=
  match dc.expiresAt with
  | some t => decide (t < now)
  | none => false

/-- Max-uses test of the widget: a nonzero cap is set and the current use
count has reached it. -/
def usesExhausted (dc : DiscountCodeRec) : Bool :=
  decide (dc.maxUses ≠ 0) && decide (dc.maxUses ≤ dc.currentUses)

/-- Raw discount amount before capping: percentage of the subtotal or the
fixed value, as computed by the widget. -/
def rawDiscount (dc : DiscountCodeRec) (subtotal : ℚ) : ℚ :=
  match dc.discountType with
  | .percentage => subtotal * dc.discountValue / 100
  | .fixed => dc.discountValue

/-- Prior-use test of the widget: a usage record exists for this code and
this user. -/
def priorUse (uses : List DiscountUse) (dcId userId : String) : Bool :=
  (uses.find? (fun u => u.discountCodeId == dcId && u.userId == userId)).isSome

/-- Translation of validateAndApplyDiscount from the DiscountCode widget.
Returns the applied discount amount (none on rejection) together with the
trace of network calls: the empty-input rejection happens before any
call, the code lookup and the prior-use lookup are reads, and the widget
never writes. -/
def validateAndApplyDiscount (codes : List DiscountCodeRec)
    (uses : List DiscountUse) (userId entered : String) (now : Int)
    (subtotal : ℚ) : Option ℚ × List NetCall :=
  if jsTrim entered = "" then (none, [])
  else
    let tr0 := [NetCall.read "auth", NetCall.read "discount_codes"]
    match lookupActiveCode codes entered with
    | none => (none, tr0)
    | some dc =>
      if isExpired now dc then (none, tr0)
      else if usesExhausted dc then (none, tr0)
      else if subtotal < dc.minimumOrderAmount then (none, tr0)
      else
        let tr1 := tr0 ++ [NetCall.read "discount_code_uses"]
        if priorUse uses dc.id userId then (none, tr1)
        else (some (min (rawDiscount dc subtotal) subtotal), tr1)

/-- Cart and checkout page join: each cart row is joined to its product
by a second fetch (modelled by the lookup function, none on a missing
product or a failed fetch) and rows whose product lookup failed are
dropped.  Translation of Cart.loadCartItems and Checkout.loadCartItems. -/
def loadCartItems (rows : List CartRow) (fetch : String → Option Product) :
    List CartItem :=
  (rows.map (fun item =>
    { id := item.id
      userId := item.user_id
      productId := item.product_id
      quantity := item.quantity
      product := (fetch item.product_id).map mapProduct })).filter
    (fun item => item.product.isSome)

/-- Applied discount held in page state after the widget accepted a
code. -/
structure AppliedDiscount where
  code : String
  amount : ℚ
  description : String
deriving DecidableEq, Repr

/-- Discount amount used by the total computation: the applied amount, or
0 when no discount is applied. -/
def discountAmountOf (applied : Option AppliedDiscount) : ℚ :=
  match applied with
  | some d => d.amount
  | none => 0

/-- Subtotal of the cart page: price of each item times its quantity,
missing products contributing price 0. -/
def cartCalculateSubtotal (items : List CartItem) : ℚ :=
  items.foldl
    (fun total item =>
      total + (match item.product with
               | some p => p.price
               | none => 0) * (item.quantity : ℚ)) 0

/-- Total of the cart page: subtotal minus the applied discount, clamped
at zero. -/
def cartCalculateTotal (items : List CartItem)
    (applied : Option AppliedDiscount) : ℚ :=
  max 0 (cartCalculateSubtotal items - discountAmountOf applied)

/-- Subtotal of the checkout page (same computation as the cart page). -/
def checkoutCalculateSubtotal (items : List CartItem) : ℚ :=
  items.foldl
    (fun total item =>
      total + (match item.product with
               | some p => p.price
               | none => 0) * (item.quantity : ℚ)) 0

/-- Total of the checkout page: subtotal minus the applied discount,
clamped at zero. -/
def checkoutCalculateTotal (items : List CartItem)
    (applied : Option AppliedDiscount) : ℚ :=
  max 0 (checkoutCalculateSubtotal items - discountAmountOf applied)

/-- Checkout form state; the card fields are collected but never sent to
the backend. -/
structure CheckoutForm where
  firstName : String
  lastName : String
  email : String
  phone : String
  address : String
  city : String
  state : String
  zipCode : String
  country : String
  cardNumber : String
  expiryDate : String
  cvv : String
  cardName : String
deriving DecidableEq, Repr

/-- Required-field validation of Checkout.handleSubmit: first name, last
name, email and address must be nonempty. -/
def validForm (f : CheckoutForm) : Bool :=
  !(f.firstName == "" || f.lastName == "" || f.email == "" || f.address == "")

/-- Shipping address string assembled by Checkout.handleSubmit. -/
def mkShippingAddress (f : CheckoutForm) : String :=
  f.address ++ ", " ++ f.city ++ ", " ++ f.state ++ " " ++ f.zipCode ++ ", " ++ f.country

/-- Stock re-validation loop of Checkout.handleSubmit: per line item, a
missing snapshot counts as an error without a call, otherwise the product
is re-fetched (a read) and an error is counted when it is gone or its
fresh stock is below the requested quantity.  Returns the number of
errors and the trace of reads; the loop never stops early. -/
def stockValidation : List CartItem → Backend → Nat × List NetCall
  | [], _ => (0, [])
  | item :: rest, st =>
    let head : Nat × List NetCall :=
      match item.product with
      | none => (1, [])
      | some _ =>
        match st.products.find? (fun p => p.id == item.productId) with
        | none => (1, [NetCall.read "products"])
        | some p =>
          if p.stock_quantity < item.quantity then (1, [NetCall.read "products"])
          else (0, [NetCall.read "products"])
    let tail := stockValidation rest st
    (head.1 + tail.1, head.2 ++ tail.2)

/-- Stock update helper: products.update on the given id setting the
stock_quantity field. -/
def updateStock (ps : List Product) (pid : String) (newStock : Int) :
    List Product :=
  ps.map (fun p => if p.id == pid then { p with stock_quantity := newStock } else p)

/-- Order item record created for one cart line item at checkout. -/
def mkOrderItem (orderId : String) (item : CartItem) : OrderItem :=
  { id := "orderitem_" ++ item.id
    order_id := orderId
    product_id := item.productId
    quantity := item.quantity
    price := match item.product with
             | some p => p.price
             | none => 0 }

/-- Per-item mutation step of Checkout.handleSubmit: create the order
item; when the snapshot is present, write the clamped decremented stock,
re-fetch the product to find its seller and create the 5 percent
commission earnings record. -/
def processItem (orderId : String) (item : CartItem) (st : Backend) :
    Backend × List NetCall :=
  let st1 := { st with orderItems := st.orderItems ++ [mkOrderItem orderId item] }
  match item.product with
  | none => (st1, [NetCall.write "order_items"])
  | some snap =>
    let newStock := max 0 (snap.stockQuantity - item.quantity)
    let st2 := { st1 with products := updateStock st1.products item.productId newStock }
    let unitPrice := snap.price
    let totalEarnings := unitPrice * (item.quantity : ℚ)
    let commissionRate : ℚ := 5 / 100
    let commissionAmount := totalEarnings * commissionRate
    let netEarnings := totalEarnings - commissionAmount
    let tr := [NetCall.write "order_items", NetCall.write "products",
               NetCall.read "products"]
    match st2.products.find? (fun p => p.id == item.productId) with
    | none => (st2, tr)
    | some prod =>
      let earn : SellerEarning :=
        { id := "earning_" ++ item.id
          sellerId := prod.user_id
          orderId := orderId
          productId := item.productId
          quantity := item.quantity
          unitPrice := unitPrice
          totalEarnings := totalEarnings
          commissionRate := commissionRate
          commissionAmount := commissionAmount
          netEarnings := netEarnings
          status := "available" }
      ({ st2 with sellerEarnings := st2.sellerEarnings ++ [earn] },
       tr ++ [NetCall.write "seller_earnings"])

/-- Sequential processing of every cart line item at checkout. -/
def processItems (orderId : String) : List CartItem → Backend → Backend × List NetCall
  | [], st => (st, [])
  | item :: rest, st =>
    let r1 := processItem orderId item st
    let r2 := processItems orderId rest r1.1
    (r2.1, r1.2 ++ r2.2)

/-- Discount redemption step of Checkout.handleSubmit: look the applied
code up by exact code string, record a usage row and increment the use
counter. -/
def recordDiscountUsage (applied : Option AppliedDiscount)
    (userId orderId : String) (st : Backend) : Backend × List NetCall :=
  match applied with
  | none => (st, [])
  | some ad =>
    match st.discountCodes.find? (fun c => c.code == ad.code) with
    | none => (st, [NetCall.read "discount_codes"])
    | some dc =>
      let use : DiscountUse :=
        { id := "usage_" ++ orderId
          discountCodeId := dc.id
          userId := userId
          orderId := orderId
          discountAmount := ad.amount }
      ({ st with
          discountCodeUses := st.discountCodeUses ++ [use]
          discountCodes := st.discountCodes.map
            (fun c => if c.id == dc.id then { c with currentUses := c.currentUses + 1 } else c) },
       [NetCall.read "discount_codes", NetCall.write "discount_code_uses",
        NetCall.write "discount_codes"])

/-- Cart clearing step of Checkout.handleSubmit: delete each displayed
cart row by id. -/
def clearCart : List CartItem → Backend → Backend × List NetCall
  | [], st => (st, [])
  | item :: rest, st =>
    let st1 := { st with cartItems := st.cartItems.filter (fun r => r.id != item.id) }
    let r2 := clearCart rest st1
    (r2.1, NetCall.write "cart_items" :: r2.2)

/-- Order record assembled by Checkout.handleSubmit: subtotal from the
displayed cart, discount from the applied code, total clamped at zero. -/
def orderOf (form : CheckoutForm) (cart : List CartItem)
    (applied : Option AppliedDiscount) (userId orderId : String) : Order :=
  { id := orderId
    user_id := userId
    total_amount := max 0 (checkoutCalculateSubtotal cart - discountAmountOf applied)
    subtotal_amount := checkoutCalculateSubtotal cart
    discount_amount := discountAmountOf applied
    discount_code := applied.map (fun d => d.code)
    status := "completed"
    shipping_address := mkShippingAddress form }

/-- Stock updates of the checkout mutation loop, restricted to the
products collection: each line item with a snapshot writes the clamped
decremented stock of its product. -/
def applyStockUpdates : List CartItem → List Product → List Product
  | [], ps => ps
  | item :: rest, ps =>
    match item.product with
    | none => applyStockUpdates rest ps
    | some snap =>
      applyStockUpdates rest
        (updateStock ps item.productId (max 0 (snap.stockQuantity - item.quantity)))

/-- Translation of Checkout.handleSubmit.  Invalid required fields return
before any network call; a stock re-validation failure returns after the
validation reads only; otherwise the order is created, every line item is
processed, the discount redemption is recorded and the cart rows are
deleted, all as sequential calls. -/
def handleSubmit (form : CheckoutForm) (cart : List CartItem)
    (applied : Option AppliedDiscount) (userId orderId : String)
    (st : Backend) : Backend × List NetCall :=
  if !validForm form then (st, [])
  else
    let val := stockValidation cart st
    if 0 < val.1 then (st, NetCall.read "auth" :: val.2)
    else
      let st1 := { st with orders := st.orders ++ [orderOf form cart applied userId orderId] }
      let r2 := processItems orderId cart st1
      let r3 := recordDiscountUsage applied userId orderId r2.1
      let r4 := clearCart cart r3.1
      (r4.1,
        NetCall.read "auth" :: val.2 ++ [NetCall.write "orders"] ++ r2.2 ++ r3.2 ++ r4.2)

/-- Available balance shown by the payouts panel: sum of net earnings
over the earnings with status available. -/
def availableBalance (earnings : List SellerEarning) : ℚ :=
  ((earnings.filter (fun e => e.status == "available")).map
    (fun e => e.netEarnings)).sum

/-- Greedy allocation loop of handlePayoutRequest: walk the available
earnings in their listed order, stop once the remaining amount is no
longer positive, and for each earning reached create a payout item for
min of remaining and net earnings and flip the earning to
pending_payout. -/
def allocLoop (reqId : String) : ℚ → List SellerEarning → Backend → Backend × List NetCall
  | _, [], st => (st, [])
  | remaining, e :: rest, st =>
    if remaining ≤ 0 then (st, [])
    else
      let alloc := min remaining e.netEarnings
      let item : PayoutItemRec :=
        { id := "payoutitem_" ++ e.id
          payoutRequestId := reqId
          sellerEarningId := e.id
          amount := alloc }
      let st1 :=
        { st with
            payoutItems := st.payoutItems ++ [item]
            sellerEarnings := st.sellerEarnings.map
              (fun x => if x.id == e.id then { x with status := "pending_payout" } else x) }
      let r2 := allocLoop reqId (remaining - alloc) rest st1
      (r2.1, NetCall.write "payout_items" :: NetCall.write "seller_earnings" :: r2.2)

/-- Specification-level description of the greedy walk: the payout items
the loop creates, computed without threading backend state. -/
def allocate (reqId : String) : ℚ → List SellerEarning → List PayoutItemRec
  | _, [] => []
  | remaining, e :: rest =>
    if remaining ≤ 0 then []
    else
      { id := "payoutitem_" ++ e.id
        payoutRequestId := reqId
        sellerEarningId := e.id
        amount := min remaining e.netEarnings } ::
        allocate reqId (remaining - min remaining e.netEarnings) rest

/-- Translation of handlePayoutRequest from the seller payouts panel.
The amount is none when the entered text does not parse to a number; a
missing, zero, negative or over-balance amount is rejected before any
network call; otherwise one payout request is created and the greedy
allocation loop runs over the available earnings in their listed order. -/
def handlePayoutRequest (amount : Option ℚ) (reqId : String)
    (earnings : List SellerEarning) (sellerId paymentMethod : String)
    (st : Backend) : Backend × List NetCall :=
  match amount with
  | none => (st, [])
  | some a =>
    if a ≤ 0 then (st, [])
    else if availableBalance earnings < a then (st, [])
    else
      let req : PayoutRequestRec :=
        { id := reqId
          sellerId := sellerId
          amount := a
          status := "pending"
          paymentMethod := paymentMethod }
      let st1 := { st with payoutRequests := st.payoutRequests ++ [req] }
      let r2 := allocLoop reqId a
        (earnings.filter (fun e => e.status == "available")) st1
      (r2.1, NetCall.read "auth" :: NetCall.write "payout_requests" :: r2.2)

/-- Result of an add-to-cart action: rejection with no mutation, an
update of an existing row to a new quantity, or creation of a new row
with the given quantity. -/
inductive CartResult where
  | rejected : CartResult
  | updated (rowId : String) (newQty : Int) : CartResult
  | created (qty : Int) : CartResult
deriving DecidableEq, Repr

/-- Cart rows of the given user for the given product, in stored order,
as returned by the cart_items list call of the add-to-cart handlers. -/
def cartRowsFor (cart : List CartRow) (uid pid : String) : List CartRow :=
  cart.filter (fun r => r.user_id == uid && r.product_id == pid)

/-- Translation of HomePage.addToCart: reject when out of stock; if a row
exists, increment it by one unless the combined quantity exceeds stock;
otherwise create a row with quantity one. -/
def homeAddToCart (p : ProductSnap) (cart : List CartRow) (uid : String) :
    CartResult :=
  if p.stockQuantity ≤ 0 then .rejected
  else
    match cartRowsFor cart uid p.id with
    | row :: _ =>
      let newQuantity := row.quantity + 1
      if p.stockQuantity < newQuantity then .rejected
      else .updated row.id newQuantity
    | [] => .created 1

/-- Translation of ProductDetails.addToCart: reject when out of stock or
when the selected quantity alone exceeds stock; if a row exists,
increment it by the selected quantity unless the combined quantity
exceeds stock; otherwise create a row with the selected quantity. -/
def productAddToCart (p : ProductSnap) (qty : Int) (cart : List CartRow)
    (uid : String) : CartResult :=
  if p.stockQuantity ≤ 0 then .rejected
  else if p.stockQuantity < qty then .rejected
  else
    match cartRowsFor cart uid p.id with
    | row :: _ =>
      let newQuantity := row.quantity + qty
      if p.stockQuantity < newQuantity then .rejected
      else .updated row.id newQuantity
    | [] => .created qty

/-- Translation of BookDetails.addToCart (the legacy book detail page):
increment an existing row by one or create a row with quantity one, with
no stock check of any kind. -/
def bookAddToCart (cart : List CartRow) (uid bookId : String) : CartResult :=
  match cartRowsFor cart uid bookId with
  | row :: _ => .updated row.id (row.quantity + 1)
  | [] => .created 1

/-- Static admin email allow-list from the admin configuration. -/
def adminEmails : List String :=
  ["kai.jiabo.feng@gmail.com", "mustafayare2009@gmail.com"]

/-- Translation of ADMIN_CONFIG.isAdmin: membership of the lowercased
email in the allow-list. -/
def isAdminEmail (email : String) : Bool :=
  adminEmails.contains (jsToLower email)

/-- Routes always registered by App for an authenticated session. -/
def baseRoutes : List String :=
  ["/", "/product/:id", "/cart", "/checkout"]

/-- Routes registered by App for an authenticated session with the given
email: the admin route is added exactly when the email passes the
allow-list test. -/
def appRoutes (email : String) : List String :=
  baseRoutes ++ (if isAdminEmail email then ["/admin"] else [])

/-! Concrete fixtures used by the witness theorems. -/

/-- Backend with every collection empty. -/
def emptyBackend : Backend :=
  { products := []
    cartItems := []
    orders := []
    orderItems := []
    sellerEarnings := []
    discountCodes := []
    discountCodeUses := []
    payoutRequests := []
    payoutItems := [] }

/-- A 10 percent discount code with a 50 pound minimum order. -/
def tenPercentCode : DiscountCodeRec :=
  { id := "dc1"
    code := "SAVE10"
    description := "10 percent off"
    discountType := .percentage
    discountValue := 10
    minimumOrderAmount := 50
    maxUses := 100
    currentUses := 0
    expiresAt := none
    isActive := true }

/-- A product priced 100 with five units in stock. -/
def productOne : Product :=
  { id := "p1"
    name := "Widget"
    brand := "Acme"
    price := 100
    image_url := ""
    stock_quantity := 5
    condition := "new"
    category := "electronics"
    user_id := "seller1" }

/-- A stored cart row of one unit of productOne. -/
def cartRowOne : CartRow :=
  { id := "c1", user_id := "buyer1", product_id := "p1", quantity := 1 }

/-- The cart line item for cartRowOne joined to productOne. -/
def cartItemOne : CartItem :=
  { id := "c1"
    userId := "buyer1"
    productId := "p1"
    quantity := 1
    product := some (mapProduct productOne) }

/-- Backend holding productOne, cartRowOne and tenPercentCode. -/
def checkoutBackend : Backend :=
  { emptyBackend with
      products := [productOne]
      cartItems := [cartRowOne]
      discountCodes := [tenPercentCode] }

/-- A completely filled checkout form. -/
def filledForm : CheckoutForm :=
  { firstName := "Ada"
    lastName := "Lovelace"
    email := "ada@example.com"
    phone := ""
    address := "1 High St"
    city := "London"
    state := "LDN"
    zipCode := "E1"
    country := "United Kingdom"
    cardNumber := "4111"
    expiryDate := "12/30"
    cvv := "123"
    cardName := "Ada" }

/-- The filled form with the required first name blanked. -/
def emptyNameForm : CheckoutForm :=
  { filledForm with firstName := "" }

/-- An available seller earning of 95 net. -/
def earningA : SellerEarning :=
  { id := "e1"
    sellerId := "seller1"
    orderId := "o0"
    productId := "p1"
    quantity := 1
    unitPrice := 100
    totalEarnings := 100
    commissionRate := 5 / 100
    commissionAmount := 5
    netEarnings := 95
    status := "available" }

/-- An available seller earning of 40 net. -/
def earningB : SellerEarning :=
  { earningA with id := "e2", totalEarnings := 42, commissionAmount := 2, netEarnings := 40 }

/-- Backend holding the two available earnings. -/
def payoutBackend : Backend :=
  { emptyBackend with sellerEarnings := [earningA, earningB] }

/-- A product with three units of fresh stock. -/
def productTwo : Product :=
  { productOne with id := "p2", price := 20, stock_quantity := 3 }

/-- A cart line item requesting two units of productTwo against a stale
snapshot that recorded only one unit of stock. -/
def staleItemTwo : CartItem :=
  { id := "c2"
    userId := "buyer1"
    productId := "p2"
    quantity := 2
    product := some { mapProduct productTwo with stockQuantity := 1 } }

/-- Backend holding productTwo and the stored row behind staleItemTwo. -/
def staleBackend : Backend :=
  { emptyBackend with
      products := [productTwo]
      cartItems := [{ id := "c2", user_id := "buyer1", product_id := "p2", quantity := 2 }] }

/-- A product with a single unit of stock, used by the legacy book page
counterexample. -/
def legacyBook : ProductSnap :=
  { mapProduct productOne with id := "b1", stockQuantity := 1 }

/-- An existing cart row holding one unit of legacyBook. -/
def legacyRow : CartRow :=
  { id := "r1", user_id := "buyer1", product_id := "b1", quantity := 1 }

/-- A product with one unit of stock used by the insufficient-stock
checkout counterexample. -/
def productLow : Product :=
  { productOne with id := "p3", stock_quantity := 1 }

/-- A cart line item requesting two units of productLow. -/
def lowItem : CartItem :=
  { id := "c3"
    userId := "buyer1"
    productId := "p3"
    quantity := 2
    product := some (mapProduct productLow) }

/-- Backend holding productLow and the stored row behind lowItem. -/
def lowBackend : Backend :=
  { emptyBackend with
      products := [productLow]
      cartItems := [{ id := "c3", user_id := "buyer1", product_id := "p3", quantity := 2 }] }

/-! Claim theorems and supporting lemmas. -/

/-- C9: for every cart state and every applied discount, including
amounts larger than the subtotal, the computed order total equals
max 0 (subtotal - discountAmount) on both the cart page and the checkout
page, and is therefore never negative. -/
theorem totals_clamped_nonneg (items : List CartItem)
    (applied : Option AppliedDiscount) :
    cartCalculateTotal items applied =
        max 0 (cartCalculateSubtotal items - discountAmountOf applied) ∧
      0 ≤ cartCalculateTotal items applied ∧
      checkoutCalculateTotal items applied =
        max 0 (checkoutCalculateSubtotal items - discountAmountOf applied) ∧
      0 ≤ checkoutCalculateTotal items applied :=
  ⟨rfl, le_max_left 0 _, rfl, le_max_left 0 _⟩

/-- C8: for every authenticated session, the admin route is registered if
and only if the lowercased email of the user belongs to the static
allow-list, which has exactly two entries; no other route equals the
admin route. -/
theorem admin_route_allowlist (email : String) :
    ("/admin" ∈ appRoutes email ↔ jsToLower email ∈ adminEmails) ∧
      adminEmails.length = 2 := by
  refine ⟨?_, rfl⟩
  unfold appRoutes
  by_cases h : isAdminEmail email = true
  · have hmem : jsToLower email ∈ adminEmails := by
      have := h
      unfold isAdminEmail at this
      exact List.mem_of_elem_eq_true this
    simp [h, baseRoutes, hmem]
  · have hmem : jsToLower email ∉ adminEmails := by
      intro hc
      exact h (by unfold isAdminEmail; exact List.elem_eq_true_of_mem hc)
    simp [h, baseRoutes, hmem]

/-- C6: for every list of fetched cart rows, the displayed cart produced
by the join is exactly the rows whose product lookup succeeded, each
carried over with its id, user, product reference and quantity unaltered
and its product snapshot attached. -/
theorem cart_join_drops_missing (rows : List CartRow)
    (fetch : String → Option Product) :
    loadCartItems rows fetch =
      (rows.filter (fun r => (fetch r.product_id).isSome)).map
        (fun r =>
          { id := r.id
            userId := r.user_id
            productId := r.product_id
            quantity := r.quantity
            product := (fetch r.product_id).map mapProduct }) := by
  induction rows with
  | nil => rfl
  | cons r rs ih =>
    unfold loadCartItems at ih ⊢
    cases h : fetch r.product_id with
    | none => simp [h, ih]
    | some p => simp [h, ih]

/-- C4: a payout request whose amount is missing, not positive, or
greater than the available balance is rejected with no network call and
no backend mutation of any kind. -/
theorem payout_reject_no_mutation (amount : Option ℚ) (reqId : String)
    (earnings : List SellerEarning) (sellerId pm : String) (st : Backend)
    (h : amount = none ∨
      ∃ a, amount = some a ∧ (a ≤ 0 ∨ availableBalance earnings < a)) :
    handlePayoutRequest amount reqId earnings sellerId pm st = (st, []) := by
  rcases h with h | ⟨a, ha, h⟩
  · subst h; rfl
  · subst ha
    rcases h with h | h
    · simp [handlePayoutRequest, h]
    · by_cases hz : a ≤ 0
      · simp [handlePayoutRequest, hz]
      · simp [handlePayoutRequest, hz, h]

/-- Witness for C4: a request of 200 against an available balance of 135
is rejected with no record created. -/
theorem payout_reject_no_mutation_witness :
    handlePayoutRequest (some 200) "req1" [earningA, earningB] "seller1"
        "bank_transfer" payoutBackend = (payoutBackend, []) :=
  payout_reject_no_mutation (some 200) "req1" [earningA, earningB] "seller1"
    "bank_transfer" payoutBackend
    (Or.inr ⟨200, rfl, Or.inr (by norm_num [availableBalance, earningA, earningB])⟩)

/-- Two members of a list of length at most one are equal. -/
theorem eq_of_mem_of_length_le_one {α : Type} {l : List α} {a b : α}
    (ha : a ∈ l) (hb : b ∈ l) (hlen : l.length ≤ 1) : a = b := by
  match l with
  | [] => cases ha
  | [x] =>
    have h1 : a = x := List.mem_singleton.mp ha
    have h2 : b = x := List.mem_singleton.mp hb
    rw [h1, h2]
  | x :: y :: rest => simp at hlen

/-- A successful lookup returns a member of the list that matches the
entered code, uppercased, and is active. -/
theorem lookup_found {codes : List DiscountCodeRec} {entered : String}
    {dc : DiscountCodeRec} (h : lookupActiveCode codes entered = some dc) :
    dc ∈ codes ∧ dc.code = (jsToUpper entered) ∧ dc.isActive = true := by
  have hmem := List.mem_of_find?_eq_some h
  have hp := List.find?_some h
  simp only [Bool.and_eq_true, beq_iff_eq] at hp
  exact ⟨hmem, hp.1, hp.2⟩

/-- When at most one record matches the entered code, any matching active
member is the one the lookup returns. -/
theorem lookup_of_mem_unique {codes : List DiscountCodeRec} {entered : String}
    {dc : DiscountCodeRec} (hmem : dc ∈ codes) (hcode : dc.code = (jsToUpper entered))
    (hact : dc.isActive = true)
    (huniq : (codes.filter
      (fun c => c.code == (jsToUpper entered) && c.isActive)).length ≤ 1) :
    lookupActiveCode codes entered = some dc := by
  have hp : (fun c => c.code == (jsToUpper entered) && c.isActive) dc = true := by
    simp [hcode, hact]
  have hsome : (codes.find? (fun c => c.code == (jsToUpper entered) && c.isActive)).isSome := by
    rw [List.find?_isSome]
    exact ⟨dc, hmem, hp⟩
  obtain ⟨y, hy⟩ := Option.isSome_iff_exists.mp hsome
  have hymem := List.mem_of_find?_eq_some hy
  have hyp := List.find?_some hy
  have hdcf : dc ∈ codes.filter (fun c => c.code == (jsToUpper entered) && c.isActive) :=
    List.mem_filter.mpr ⟨hmem, hp⟩
  have hyf : y ∈ codes.filter (fun c => c.code == (jsToUpper entered) && c.isActive) :=
    List.mem_filter.mpr ⟨hymem, hyp⟩
  have : y = dc := eq_of_mem_of_length_le_one hyf hdcf huniq
  rw [lookupActiveCode, hy, this]

/-- C1: for every entered code (nonblank, as enforced by the widget
button) and subtotal, assuming code strings identify at most one active
record, the discount widget accepts the code if and only if a matching
active record exists that is unexpired, strictly under its use cap when
one is set, whose minimum order the subtotal meets, and that the
requesting user has not used before; and the applied amount is
min subtotal (subtotal times value over 100) for a percentage code and
min subtotal value for a fixed code. -/
theorem discount_accept_iff (codes : List DiscountCodeRec)
    (uses : List DiscountUse) (userId entered : String) (now : Int)
    (subtotal : ℚ)
    (hne : ¬ jsTrim entered = "")
    (huniq : (codes.filter
      (fun c => c.code == (jsToUpper entered) && c.isActive)).length ≤ 1) :
    ((validateAndApplyDiscount codes uses userId entered now subtotal).1.isSome ↔
      ∃ dc ∈ codes, dc.code = (jsToUpper entered) ∧ dc.isActive = true ∧
        (∀ t, dc.expiresAt = some t → now ≤ t) ∧
        (dc.maxUses ≠ 0 → dc.currentUses < dc.maxUses) ∧
        dc.minimumOrderAmount ≤ subtotal ∧
        (∀ u ∈ uses, ¬(u.discountCodeId = dc.id ∧ u.userId = userId))) ∧
    (∀ amt,
      (validateAndApplyDiscount codes uses userId entered now subtotal).1 = some amt →
      ∃ dc ∈ codes, dc.code = (jsToUpper entered) ∧ dc.isActive = true ∧
        amt = (match dc.discountType with
          | .percentage => min subtotal (subtotal * dc.discountValue / 100)
          | .fixed => min subtotal dc.discountValue)) := by
  cases hl : lookupActiveCode codes entered with
  | none =>
    have hall := List.find?_eq_none.mp hl
    constructor
    · simp only [validateAndApplyDiscount, hne, if_false, hl]
      constructor
      · intro h; simp at h
      · rintro ⟨dc, hmem, hcode, hact, -⟩
        have := hall dc hmem
        simp [hcode, hact] at this
    · intro amt h
      simp only [validateAndApplyDiscount, hne, if_false, hl] at h
      simp at h
  | some dc =>
    obtain ⟨hmem, hcode, hact⟩ := lookup_found hl
    have huniqdc : ∀ dc2 ∈ codes, dc2.code = (jsToUpper entered) → dc2.isActive = true →
        dc2 = dc := by
      intro dc2 hmem2 hcode2 hact2
      have h2 := lookup_of_mem_unique hmem2 hcode2 hact2 huniq
      rw [hl] at h2
      exact ((Option.some.injEq _ _).mp h2).symm
    by_cases hexp : isExpired now dc = true
    · constructor
      · simp only [validateAndApplyDiscount, hne, if_false, hl, hexp]
        constructor
        · intro h; simp at h
        · rintro ⟨dc2, hmem2, hcode2, hact2, hunexp2, -⟩
          rcases huniqdc dc2 hmem2 hcode2 hact2 with rfl
          unfold isExpired at hexp
          cases ht : dc2.expiresAt with
          | none => rw [ht] at hexp; simp at hexp
          | some t =>
            rw [ht] at hexp
            simp only [decide_eq_true_eq] at hexp
            exact absurd (hunexp2 t ht) (not_le.mpr hexp)
      · intro amt h
        simp only [validateAndApplyDiscount, hne, if_false, hl, hexp] at h
        simp at h
    · by_cases hmax : usesExhausted dc = true
      · constructor
        · simp only [validateAndApplyDiscount, hne, if_false, hl, hexp, hmax]
          constructor
          · intro h; simp at h
          · rintro ⟨dc2, hmem2, hcode2, hact2, -, hunder2, -⟩
            rcases huniqdc dc2 hmem2 hcode2 hact2 with rfl
            unfold usesExhausted at hmax
            simp only [Bool.and_eq_true, decide_eq_true_eq] at hmax
            exact absurd (hunder2 hmax.1) (not_lt.mpr hmax.2)
        · intro amt h
          simp only [validateAndApplyDiscount, hne, if_false, hl, hexp, hmax] at h
          simp at h
      · by_cases hmin : subtotal < dc.minimumOrderAmount
        · constructor
          · simp only [validateAndApplyDiscount, hne, if_false, hl, hexp, hmax, hmin]
            constructor
            · intro h; simp at h
            · rintro ⟨dc2, hmem2, hcode2, hact2, -, -, hmin2, -⟩
              rcases huniqdc dc2 hmem2 hcode2 hact2 with rfl
              exact absurd hmin2 (not_le.mpr hmin)
          · intro amt h
            simp only [validateAndApplyDiscount, hne, if_false, hl, hexp, hmax, hmin] at h
            simp at h
        · by_cases hprior : priorUse uses dc.id userId = true
          · constructor
            · simp only [validateAndApplyDiscount, hne, if_false, hl, hexp, hmax,
                hmin, hprior]
              constructor
              · intro h; simp at h
              · rintro ⟨dc2, hmem2, hcode2, hact2, -, -, -, hnouse2⟩
                rcases huniqdc dc2 hmem2 hcode2 hact2 with rfl
                unfold priorUse at hprior
                obtain ⟨u, hu⟩ := Option.isSome_iff_exists.mp hprior
                have humem := List.mem_of_find?_eq_some hu
                have hup := List.find?_some hu
                simp only [Bool.and_eq_true, beq_iff_eq] at hup
                exact (hnouse2 u humem ⟨hup.1, hup.2⟩).elim
            · intro amt h
              simp only [validateAndApplyDiscount, hne, if_false, hl, hexp, hmax,
                hmin, hprior] at h
              simp at h
          · have hres :
                (validateAndApplyDiscount codes uses userId entered now subtotal).1 =
                  some (min (rawDiscount dc subtotal) subtotal) := by
              simp only [validateAndApplyDiscount, hne, if_false, hl, hexp, hmax,
                hmin, hprior]
              simp
            constructor
            · rw [hres]
              constructor
              · intro _
                refine ⟨dc, hmem, hcode, hact, ?_, ?_, not_lt.mp hmin, ?_⟩
                · intro t ht
                  unfold isExpired at hexp
                  rw [ht] at hexp
                  simp only [decide_eq_true_eq] at hexp
                  exact not_lt.mp hexp
                · intro hnz
                  unfold usesExhausted at hmax
                  simp only [Bool.and_eq_true, decide_eq_true_eq, not_and] at hmax
                  exact not_le.mp (hmax hnz)
                · intro u humem hu
                  have hnone : uses.find?
                      (fun u => u.discountCodeId == dc.id && u.userId == userId) = none := by
                    cases hfind : uses.find?
                        (fun u => u.discountCodeId == dc.id && u.userId == userId) with
                    | none => rfl
                    | some u2 =>
                      exact absurd (by unfold priorUse; rw [hfind]; rfl) hprior
                  have hnot := List.find?_eq_none.mp hnone u humem
                  simp [hu.1, hu.2] at hnot
              · intro _; simp
            · intro amt h
              rw [hres] at h
              refine ⟨dc, hmem, hcode, hact, ?_⟩
              have hamt : amt = min (rawDiscount dc subtotal) subtotal := by
                exact ((Option.some.injEq _ _).mp h).symm
              rw [hamt, rawDiscount]
              cases dc.discountType with
              | percentage => rw [min_comm]
              | fixed => rw [min_comm]

/-- Witness for C1: the 10 percent code is accepted on a subtotal of 100
in a store holding exactly that code and no usage records. -/
theorem discount_accept_iff_witness :
    (validateAndApplyDiscount [tenPercentCode] [] "buyer1" "SAVE10" 0 100).1.isSome := by
  have h := discount_accept_iff [tenPercentCode] [] "buyer1" "SAVE10" 0 100
    (by decide) (by decide)
  apply h.1.mpr
  refine ⟨tenPercentCode, by simp, by decide, by decide, ?_, by decide, ?_, by simp⟩
  · intro t ht
    simp [tenPercentCode] at ht
  · norm_num [tenPercentCode]

/-- C5 counterexample: on the legacy book detail page, adding a book that
already fills its stock in the cart is not rejected: with one unit in
stock and one already in the cart, the handler updates the row to
quantity two, so the claim that every add-to-cart action is rejected when
the combined quantity exceeds stock is false. -/
theorem addToCart_claim_false_on_book_page :
    legacyBook.stockQuantity < legacyRow.quantity + 1 ∧
      bookAddToCart [legacyRow] "buyer1" legacyBook.id =
        CartResult.updated legacyRow.id (legacyRow.quantity + 1) := by
  constructor
  · decide
  · decide

/-- C5 amended: on the two routed pages (the listing page and the product
detail page), adding a product that already has a cart row updates that
first row to the combined quantity instead of creating a second row, and
rejects the action with no mutation whenever the product is out of stock
or the combined quantity would exceed current stock; the legacy book
detail page, by contrast, increments the existing row with no stock check
at all. -/
theorem addToCart_increment_guarded (p : ProductSnap) (qty : Int)
    (cart : List CartRow) (uid : String) (row : CartRow) (rest : List CartRow)
    (hrows : cartRowsFor cart uid p.id = row :: rest)
    (hrq : 0 ≤ row.quantity) :
    (homeAddToCart p cart uid =
      if 0 < p.stockQuantity ∧ row.quantity + 1 ≤ p.stockQuantity then
        CartResult.updated row.id (row.quantity + 1)
      else CartResult.rejected) ∧
    (productAddToCart p qty cart uid =
      if 0 < p.stockQuantity ∧ row.quantity + qty ≤ p.stockQuantity then
        CartResult.updated row.id (row.quantity + qty)
      else CartResult.rejected) ∧
    bookAddToCart cart uid p.id = CartResult.updated row.id (row.quantity + 1) := by
  refine ⟨?_, ?_, ?_⟩
  · rw [homeAddToCart, hrows]
    dsimp only
    by_cases h0 : p.stockQuantity ≤ 0
    · rw [if_pos h0, if_neg (by omega)]
    · rw [if_neg h0]
      by_cases h1 : p.stockQuantity < row.quantity + 1
      · rw [if_pos h1, if_neg (by omega)]
      · rw [if_neg h1, if_pos (by omega)]
  · rw [productAddToCart, hrows]
    dsimp only
    by_cases h0 : p.stockQuantity ≤ 0
    · rw [if_pos h0, if_neg (by omega)]
    · rw [if_neg h0]
      by_cases h2 : p.stockQuantity < qty
      · rw [if_pos h2, if_neg (by omega)]
      · rw [if_neg h2]
        by_cases h1 : p.stockQuantity < row.quantity + qty
        · rw [if_pos h1, if_neg (by omega)]
        · rw [if_neg h1, if_pos (by omega)]
  · rw [bookAddToCart, hrows]

/-- Witness for C5 amended: with five units in stock and one already in
the cart, the listing page updates the row to two units and the product
detail page with selected quantity two updates it to three. -/
theorem addToCart_increment_guarded_witness :
    homeAddToCart (mapProduct productOne) [cartRowOne] "buyer1" =
        CartResult.updated "c1" 2 ∧
      productAddToCart (mapProduct productOne) 2 [cartRowOne] "buyer1" =
        CartResult.updated "c1" 3 := by
  have h := addToCart_increment_guarded (mapProduct productOne) 2 [cartRowOne]
    "buyer1" cartRowOne [] (by decide) (by decide)
  constructor
  · rw [h.1]; decide
  · rw [h.2.1]; decide

/-- The imperative allocation loop of the payouts panel appends exactly
the payout items described by the specification-level greedy walk and
flips exactly the earnings those items touch, leaving every other
collection untouched. -/
theorem allocLoop_spec (reqId : String) (r : ℚ) (l : List SellerEarning)
    (st : Backend) :
    (allocLoop reqId r l st).1 =
      { st with
          payoutItems := st.payoutItems ++ allocate reqId r l
          sellerEarnings := st.sellerEarnings.map
            (fun x =>
              if x.id ∈ (allocate reqId r l).map PayoutItemRec.sellerEarningId
              then { x with status := "pending_payout" } else x) } := by
  induction l generalizing r st with
  | nil =>
    simp only [allocLoop, allocate, List.append_nil, List.map_nil]
    cases st
    simp
  | cons e es ih =>
    by_cases hr : r ≤ 0
    · simp only [allocLoop, allocate, hr, if_true, List.append_nil, List.map_nil]
      cases st
      simp
    · simp only [allocLoop, allocate, hr, if_false]
      rw [ih]
      have hitems :
          (st.payoutItems ++
            [{ id := "payoutitem_" ++ e.id
               payoutRequestId := reqId
               sellerEarningId := e.id
               amount := min r e.netEarnings }]) ++
            allocate reqId (r - min r e.netEarnings) es =
          st.payoutItems ++
            ({ id := "payoutitem_" ++ e.id
               payoutRequestId := reqId
               sellerEarningId := e.id
               amount := min r e.netEarnings } ::
              allocate reqId (r - min r e.netEarnings) es) := by
        simp
      have hearn :
          (st.sellerEarnings.map
            (fun x => if x.id == e.id then { x with status := "pending_payout" } else x)).map
            (fun x =>
              if x.id ∈ (allocate reqId (r - min r e.netEarnings) es).map
                  PayoutItemRec.sellerEarningId
              then { x with status := "pending_payout" } else x) =
          st.sellerEarnings.map
            (fun x =>
              if x.id ∈ e.id :: (allocate reqId (r - min r e.netEarnings) es).map
                  PayoutItemRec.sellerEarningId
              then { x with status := "pending_payout" } else x) := by
        rw [List.map_map]
        apply List.map_congr_left
        intro x _
        by_cases hx : x.id = e.id
        · simp only [Function.comp, hx, beq_self_eq_true, if_true, List.mem_cons]
          by_cases hmemr : e.id ∈ (allocate reqId (r - min r e.netEarnings) es).map
              PayoutItemRec.sellerEarningId
          · simp [hmemr]
          · simp [hmemr]
        · have hbeq : (x.id == e.id) = false := beq_eq_false_iff_ne.mpr hx
          simp only [Function.comp, hbeq, if_false, List.mem_cons]
          by_cases hmemr : x.id ∈ (allocate reqId (r - min r e.netEarnings) es).map
              PayoutItemRec.sellerEarningId
          · simp [hmemr, hx]
          · simp [hmemr, hx]
      simp only [hitems, hearn]
      rfl

/-- The greedy walk allocates min of the requested amount and the total
net earnings of the list, provided the request and every net earning are
nonnegative. -/
theorem allocate_sum (reqId : String) (r : ℚ) (l : List SellerEarning)
    (hr : 0 ≤ r) (hnn : ∀ e ∈ l, 0 ≤ e.netEarnings) :
    ((allocate reqId r l).map PayoutItemRec.amount).sum =
      min r ((l.map SellerEarning.netEarnings).sum) := by
  induction l generalizing r with
  | nil =>
    simp only [allocate, List.map_nil, List.sum_nil]
    exact (min_eq_right hr).symm
  | cons e es ih =>
    have hsumnn : 0 ≤ ((es.map SellerEarning.netEarnings).sum) := by
      apply List.sum_nonneg
      intro x hx
      obtain ⟨y, hy, rfl⟩ := List.mem_map.mp hx
      exact hnn y (List.mem_cons_of_mem e hy)
    have henn : 0 ≤ e.netEarnings := hnn e (List.mem_cons_self e es)
    by_cases hr0 : r ≤ 0
    · have hreq : r = 0 := le_antisymm hr0 hr
      subst hreq
      simp only [allocate, le_refl, if_true, List.map_nil, List.sum_nil,
        List.map_cons, List.sum_cons]
      have : (0 : ℚ) ≤ e.netEarnings + (es.map SellerEarning.netEarnings).sum := by
        linarith
      exact (min_eq_left this).symm
    · simp only [allocate, hr0, if_false, List.map_cons, List.sum_cons]
      have hrec := ih (r - min r e.netEarnings)
        (by rcases le_total r e.netEarnings with h | h <;> simp [min_def, h])
        (fun x hx => hnn x (List.mem_cons_of_mem e hx))
      rw [hrec]
      rcases le_total r e.netEarnings with h | h
      · rw [min_eq_left h, sub_self, min_eq_left hsumnn,
          min_eq_left (by linarith :
            r ≤ e.netEarnings + (es.map SellerEarning.netEarnings).sum)]
        ring
      · rw [min_eq_right h]
        rcases le_total (r - e.netEarnings)
            ((es.map SellerEarning.netEarnings).sum) with h2 | h2
        · rw [min_eq_left h2,
            min_eq_left (by linarith :
              r ≤ e.netEarnings + (es.map SellerEarning.netEarnings).sum)]
          ring
        · rw [min_eq_right h2,
            min_eq_right (by linarith :
              e.netEarnings + (es.map SellerEarning.netEarnings).sum ≤ r)]

/-- C3: for every payout request whose amount is positive and at most the
available balance, submission creates exactly one payout request for that
amount, appends exactly the payout items of the greedy first-listed-first
walk over the available earnings (each item taking min of the remaining
amount and that earning's net, stopping once the amount is covered), the
item amounts sum to the requested amount, and exactly the earnings
touched by those items are flipped to pending_payout. -/
theorem payout_allocation_correct (a : ℚ) (reqId : String)
    (earnings : List SellerEarning) (sellerId pm : String) (st : Backend)
    (hpos : 0 < a) (hle : a ≤ availableBalance earnings)
    (hnn : ∀ e ∈ earnings, 0 ≤ e.netEarnings) :
    (handlePayoutRequest (some a) reqId earnings sellerId pm st).1.payoutRequests =
        st.payoutRequests ++
          [{ id := reqId
             sellerId := sellerId
             amount := a
             status := "pending"
             paymentMethod := pm }] ∧
      (handlePayoutRequest (some a) reqId earnings sellerId pm st).1.payoutItems =
        st.payoutItems ++
          allocate reqId a (earnings.filter (fun e => e.status == "available")) ∧
      ((allocate reqId a
          (earnings.filter (fun e => e.status == "available"))).map
        PayoutItemRec.amount).sum = a ∧
      (handlePayoutRequest (some a) reqId earnings sellerId pm st).1.sellerEarnings =
        st.sellerEarnings.map
          (fun e =>
            if e.id ∈ (allocate reqId a
                (earnings.filter (fun e => e.status == "available"))).map
                PayoutItemRec.sellerEarningId
            then { e with status := "pending_payout" } else e) := by
  have hnle : ¬ a ≤ 0 := not_le.mpr hpos
  have hnlt : ¬ availableBalance earnings < a := not_lt.mpr hle
  have hres : handlePayoutRequest (some a) reqId earnings sellerId pm st =
      (let st1 := { st with payoutRequests := st.payoutRequests ++
        [{ id := reqId
           sellerId := sellerId
           amount := a
           status := "pending"
           paymentMethod := pm }] }
       let r2 := allocLoop reqId a
         (earnings.filter (fun e => e.status == "available")) st1
       (r2.1, NetCall.read "auth" :: NetCall.write "payout_requests" :: r2.2)) := by
    simp only [handlePayoutRequest, hnle, hnlt, if_false]
  have hsum : ((allocate reqId a
      (earnings.filter (fun e => e.status == "available"))).map
      PayoutItemRec.amount).sum = a := by
    have hnn2 : ∀ e ∈ earnings.filter (fun e => e.status == "available"),
        0 ≤ e.netEarnings := by
      intro e he
      exact hnn e (List.mem_of_mem_filter he)
    have h := allocate_sum reqId a
      (earnings.filter (fun e => e.status == "available")) (le_of_lt hpos) hnn2
    rw [h]
    have hbal : availableBalance earnings =
        ((earnings.filter (fun e => e.status == "available")).map
          SellerEarning.netEarnings).sum := rfl
    rw [hbal] at hle
    exact min_eq_left hle
  rw [hres]
  dsimp only
  rw [allocLoop_spec]
  exact ⟨rfl, rfl, hsum, rfl⟩

/-- Witness for C3: a request of 100 against available earnings of 95 and
40 allocates 95 from the first earning and 5 from the second, covering
the amount exactly. -/
theorem payout_allocation_correct_witness :
    ((allocate "req1" 100
        ([earningA, earningB].filter (fun e => e.status == "available"))).map
      PayoutItemRec.amount).sum = 100 := by
  have h := payout_allocation_correct 100 "req1" [earningA, earningB] "seller1"
    "bank_transfer" payoutBackend (by norm_num)
    (by norm_num [availableBalance, earningA, earningB])
    (by
      intro e he
      simp only [List.mem_cons, List.not_mem_nil, or_false] at he
      rcases he with rfl | rfl
      · norm_num [earningA]
      · norm_num [earningA, earningB])
  exact h.2.2.1

/-- Every call of the stock re-validation loop is the product re-fetch
read. -/
theorem stockValidation_trace (cart : List CartItem) (st : Backend) :
    ∀ c ∈ (stockValidation cart st).2, c = NetCall.read "products" := by
  induction cart with
  | nil => intro c hc; simp [stockValidation] at hc
  | cons item rest ih =>
    intro c hc
    rw [stockValidation] at hc
    dsimp only at hc
    rw [List.mem_append] at hc
    rcases hc with hc | hc
    · cases hp : item.product with
      | none => rw [hp] at hc; simp at hc
      | some snap =>
        rw [hp] at hc
        dsimp only at hc
        cases hf : st.products.find? (fun p => p.id == item.productId) with
        | none =>
          rw [hf] at hc
          simp at hc
          rw [hc]
        | some p =>
          rw [hf] at hc
          dsimp only at hc
          by_cases hlt : p.stock_quantity < item.quantity
          · rw [if_pos hlt] at hc
            simp at hc
            rw [hc]
          · rw [if_neg hlt] at hc
            simp at hc
            rw [hc]
    · exact ih c hc

/-- The stock re-validation loop reports no error when every line item
has a snapshot and its product re-fetch finds at least the requested
quantity in stock. -/
theorem stockValidation_zero (cart : List CartItem) (st : Backend)
    (h : ∀ item ∈ cart, ∃ snap p, item.product = some snap ∧
      st.products.find? (fun q => q.id == item.productId) = some p ∧
      item.quantity ≤ p.stock_quantity) :
    (stockValidation cart st).1 = 0 := by
  induction cart with
  | nil => rfl
  | cons item rest ih =>
    obtain ⟨snap, p, hp, hf, hq⟩ := h item (List.mem_cons_self item rest)
    rw [stockValidation]
    dsimp only
    rw [hp]
    dsimp only
    rw [hf]
    dsimp only
    rw [if_neg (not_lt.mpr hq)]
    rw [ih (fun it hit => h it (List.mem_cons_of_mem item hit))]

/-- Updating the stock of one product id leaves the lookup of any other
id unchanged. -/
theorem updateStock_find_ne (ps : List Product) (pid : String) (v : Int)
    (k : String) (hne : ¬ pid = k) :
    (updateStock ps pid v).find? (fun p => p.id == k) =
      ps.find? (fun p => p.id == k) := by
  induction ps with
  | nil => rfl
  | cons p ps ih =>
    by_cases hpp : p.id = pid
    · have hb : (p.id == pid) = true := beq_iff_eq.mpr hpp
      have hk : (p.id == k) = false :=
        beq_eq_false_iff_ne.mpr (fun hc => hne ((hpp.symm.trans hc)))
      simp only [updateStock, List.map_cons, hb, if_true]
      rw [List.find?_cons_of_neg _ (by simpa using hk),
        List.find?_cons_of_neg _ (by simpa using hk)]
      exact ih
    · have hb : (p.id == pid) = false := beq_eq_false_iff_ne.mpr hpp
      simp only [updateStock, List.map_cons, hb, if_false]
      by_cases hpk : p.id = k
      · have hk : (p.id == k) = true := beq_iff_eq.mpr hpk
        rw [List.find?_cons_of_pos _ (by simpa using hk),
          List.find?_cons_of_pos _ (by simpa using hk)]
        simp [hb]
      · have hk : (p.id == k) = false := beq_eq_false_iff_ne.mpr hpk
        rw [List.find?_cons_of_neg _ (by simpa using hk),
          List.find?_cons_of_neg _ (by simpa using hk)]
        exact ih

/-- Updating the stock of a product id rewrites exactly the stock field
of the record the lookup of that id returns. -/
theorem updateStock_find_eq (ps : List Product) (pid : String) (v : Int) :
    (updateStock ps pid v).find? (fun p => p.id == pid) =
      (ps.find? (fun p => p.id == pid)).map
        (fun p => { p with stock_quantity := v }) := by
  induction ps with
  | nil => rfl
  | cons p ps ih =>
    by_cases hpp : p.id = pid
    · have hb : (p.id == pid) = true := beq_iff_eq.mpr hpp
      simp only [updateStock, List.map_cons, hb, if_true]
      rw [List.find?_cons_of_pos _ (by simpa using hb),
        List.find?_cons_of_pos _ (by simpa using hb)]
      rfl
    · have hb : (p.id == pid) = false := beq_eq_false_iff_ne.mpr hpp
      simp only [updateStock, List.map_cons, hb, if_false]
      rw [List.find?_cons_of_neg _ (by simpa using hb),
        List.find?_cons_of_neg _ (by simpa using hb)]
      exact ih

/-- The checkout stock updates leave the lookup of a product id touched
by no line item unchanged. -/
theorem applyStockUpdates_find_preserved (items : List CartItem)
    (ps : List Product) (k : String)
    (h : ∀ it ∈ items, ¬ it.productId = k) :
    (applyStockUpdates items ps).find? (fun p => p.id == k) =
      ps.find? (fun p => p.id == k) := by
  induction items generalizing ps with
  | nil => rfl
  | cons item rest ih =>
    cases hp : item.product with
    | none =>
      simp only [applyStockUpdates, hp]
      exact ih _ (fun it hit => h it (List.mem_cons_of_mem item hit))
    | some snap =>
      simp only [applyStockUpdates, hp]
      rw [ih _ (fun it hit => h it (List.mem_cons_of_mem item hit))]
      exact updateStock_find_ne ps item.productId _ k
        (h item (List.mem_cons_self item rest))

/-- When line items touch pairwise distinct products, the checkout stock
updates rewrite the lookup of each line item's product to the clamped
decremented stock computed from that item's snapshot. -/
theorem applyStockUpdates_find (items : List CartItem) (ps : List Product)
    (item : CartItem) (snap : ProductSnap)
    (hmem : item ∈ items) (hsnap : item.product = some snap)
    (hnd : (items.map CartItem.productId).Nodup) :
    (applyStockUpdates items ps).find? (fun p => p.id == item.productId) =
      (ps.find? (fun p => p.id == item.productId)).map
        (fun p =>
          { p with stock_quantity := max 0 (snap.stockQuantity - item.quantity) }) := by
  induction items generalizing ps with
  | nil => cases hmem
  | cons hd rest ih =>
    rw [List.map_cons, List.nodup_cons] at hnd
    rcases List.mem_cons.mp hmem with rfl | hmem2
    · simp only [applyStockUpdates, hsnap]
      have hrest : ∀ it ∈ rest, ¬ it.productId = item.productId := by
        intro it hit hc
        exact hnd.1 (hc ▸ List.mem_map_of_mem CartItem.productId hit)
      rw [applyStockUpdates_find_preserved rest _ item.productId hrest]
      exact updateStock_find_eq ps item.productId _
    · have hhd : ¬ hd.productId = item.productId := by
        intro hc
        exact hnd.1 (hc ▸ List.mem_map_of_mem CartItem.productId hmem2)
      cases hp : hd.product with
      | none =>
        simp only [applyStockUpdates, hp]
        exact ih _ hmem2 hnd.2
      | some s2 =>
        simp only [applyStockUpdates, hp]
        rw [ih _ hmem2 hnd.2]
        rw [updateStock_find_ne ps hd.productId _ item.productId hhd]

/-- Per-item checkout mutation: the order item is appended, the stock of
the touched product is updated, and the orders, cart rows and
discount-code collections are untouched. -/
theorem processItem_spec (orderId : String) (item : CartItem) (st : Backend) :
    (processItem orderId item st).1.orders = st.orders ∧
      (processItem orderId item st).1.cartItems = st.cartItems ∧
      (processItem orderId item st).1.discountCodes = st.discountCodes ∧
      (processItem orderId item st).1.discountCodeUses = st.discountCodeUses ∧
      (processItem orderId item st).1.orderItems =
        st.orderItems ++ [mkOrderItem orderId item] ∧
      (processItem orderId item st).1.products =
        (match item.product with
         | none => st.products
         | some snap =>
           updateStock st.products item.productId
             (max 0 (snap.stockQuantity - item.quantity))) := by
  cases hp : item.product with
  | none => simp [processItem, hp]
  | some snap =>
    cases hf : (updateStock st.products item.productId
        (max 0 (snap.stockQuantity - item.quantity))).find?
        (fun p => p.id == item.productId) with
    | none => simp [processItem, hp, hf]
    | some prod => simp [processItem, hp, hf]

/-- Sequential checkout mutation over the whole cart: one order item per
line item, the accumulated stock updates, and no other change to the
orders, cart rows or discount-code collections. -/
theorem processItems_spec (orderId : String) (cart : List CartItem)
    (st : Backend) :
    (processItems orderId cart st).1.orders = st.orders ∧
      (processItems orderId cart st).1.cartItems = st.cartItems ∧
      (processItems orderId cart st).1.discountCodes = st.discountCodes ∧
      (processItems orderId cart st).1.discountCodeUses = st.discountCodeUses ∧
      (processItems orderId cart st).1.orderItems =
        st.orderItems ++ cart.map (mkOrderItem orderId) ∧
      (processItems orderId cart st).1.products =
        applyStockUpdates cart st.products := by
  induction cart generalizing st with
  | nil => simp [processItems, applyStockUpdates]
  | cons item rest ih =>
    obtain ⟨h1, h2, h3, h4, h5, h6⟩ := processItem_spec orderId item st
    obtain ⟨g1, g2, g3, g4, g5, g6⟩ := ih (processItem orderId item st).1
    simp only [processItems]
    refine ⟨?_, ?_, ?_, ?_, ?_, ?_⟩
    · rw [g1, h1]
    · rw [g2, h2]
    · rw [g3, h3]
    · rw [g4, h4]
    · rw [g5, h5, List.map_cons, List.append_assoc, List.singleton_append]
    · rw [g6, h6]
      cases hp : item.product with
      | none => simp only [applyStockUpdates, hp]
      | some snap => simp only [applyStockUpdates, hp]

/-- The discount redemption step touches only the discount-code
collections. -/
theorem recordDiscountUsage_frame (applied : Option AppliedDiscount)
    (userId orderId : String) (st : Backend) :
    (recordDiscountUsage applied userId orderId st).1.orders = st.orders ∧
      (recordDiscountUsage applied userId orderId st).1.orderItems = st.orderItems ∧
      (recordDiscountUsage applied userId orderId st).1.products = st.products ∧
      (recordDiscountUsage applied userId orderId st).1.cartItems = st.cartItems := by
  cases applied with
  | none => simp [recordDiscountUsage]
  | some ad =>
    cases hf : st.discountCodes.find? (fun c => c.code == ad.code) with
    | none => simp [recordDiscountUsage, hf]
    | some dc => simp [recordDiscountUsage, hf]

/-- The cart clearing loop deletes exactly the displayed rows and touches
nothing else. -/
theorem clearCart_spec (l : List CartItem) (st : Backend) :
    (clearCart l st).1 =
      { st with
          cartItems := st.cartItems.filter
            (fun r => !((l.map CartItem.id).contains r.id)) } := by
  induction l generalizing st with
  | nil =>
    simp only [clearCart, List.map_nil]
    cases st
    simp
  | cons item rest ih =>
    simp only [clearCart]
    rw [ih]
    have hfilter :
        (st.cartItems.filter (fun r => r.id != item.id)).filter
            (fun r => !((rest.map CartItem.id).contains r.id)) =
          st.cartItems.filter
            (fun r => !(((item :: rest).map CartItem.id).contains r.id)) := by
      rw [List.filter_filter]
      apply List.filter_congr
      intro r _
      simp only [List.map_cons, List.contains_cons, Bool.not_or, bne]
      rw [Bool.and_comm]
    rw [hfilter]

/-- Checkout success path: with valid required fields and a clean stock
re-validation, submission appends exactly one order, one order item per
line item, applies the per-item stock updates, and deletes exactly the
displayed cart rows. -/
theorem handleSubmit_success (form : CheckoutForm) (cart : List CartItem)
    (applied : Option AppliedDiscount) (userId orderId : String) (st : Backend)
    (hform : validForm form = true)
    (hval : (stockValidation cart st).1 = 0) :
    (handleSubmit form cart applied userId orderId st).1.orders =
        st.orders ++ [orderOf form cart applied userId orderId] ∧
      (handleSubmit form cart applied userId orderId st).1.orderItems =
        st.orderItems ++ cart.map (mkOrderItem orderId) ∧
      (handleSubmit form cart applied userId orderId st).1.products =
        applyStockUpdates cart st.products ∧
      (handleSubmit form cart applied userId orderId st).1.cartItems =
        st.cartItems.filter (fun r => !((cart.map CartItem.id).contains r.id)) := by
  have hni : (!validForm form) = false := by rw [hform]; rfl
  have hres : (handleSubmit form cart applied userId orderId st).1 =
      (clearCart cart
        (recordDiscountUsage applied userId orderId
          (processItems orderId cart
            { st with orders := st.orders ++ [orderOf form cart applied userId orderId] }).1).1).1 := by
    rw [handleSubmit, hni]
    simp only [Bool.false_eq_true, if_false, hval, lt_irrefl]
  rw [hres, clearCart_spec]
  set st1 := { st with orders := st.orders ++ [orderOf form cart applied userId orderId] }
    with hst1
  obtain ⟨p1, p2, p3, p4, p5, p6⟩ := processItems_spec orderId cart st1
  obtain ⟨r1, r2, r3, r4⟩ := recordDiscountUsage_frame applied userId orderId
    (processItems orderId cart st1).1
  refine ⟨?_, ?_, ?_, ?_⟩
  · show (recordDiscountUsage applied userId orderId
      (processItems orderId cart st1).1).1.orders = _
    rw [r1, p1]
  · show (recordDiscountUsage applied userId orderId
      (processItems orderId cart st1).1).1.orderItems = _
    rw [r2, p5]
  · show (recordDiscountUsage applied userId orderId
      (processItems orderId cart st1).1).1.products = _
    rw [r3, p6]
  · show (recordDiscountUsage applied userId orderId
      (processItems orderId cart st1).1).1.cartItems.filter _ = _
    rw [r4, p2]

/-- An accepted widget run computes exactly the capped amount of the code
the lookup found. -/
theorem widget_accept_amount {codes : List DiscountCodeRec}
    {uses : List DiscountUse} {userId entered : String} {now : Int}
    {subtotal amt : ℚ} {dc : DiscountCodeRec}
    (hl : lookupActiveCode codes entered = some dc)
    (hacc : (validateAndApplyDiscount codes uses userId entered now subtotal).1 =
      some amt) :
    amt = min (rawDiscount dc subtotal) subtotal := by
  by_cases hne : jsTrim entered = ""
  · rw [validateAndApplyDiscount, if_pos hne] at hacc
    simp at hacc
  · rw [validateAndApplyDiscount, if_neg hne] at hacc
    dsimp only at hacc
    rw [hl] at hacc
    dsimp only at hacc
    by_cases hexp : isExpired now dc = true
    · rw [if_pos hexp] at hacc; simp at hacc
    · rw [if_neg hexp] at hacc
      by_cases hmax : usesExhausted dc = true
      · rw [if_pos hmax] at hacc; simp at hacc
      · rw [if_neg hmax] at hacc
        by_cases hmin : subtotal < dc.minimumOrderAmount
        · rw [if_pos hmin] at hacc; simp at hacc
        · rw [if_neg hmin] at hacc
          by_cases hprior : priorUse uses dc.id userId = true
          · rw [if_pos hprior] at hacc; simp at hacc
          · rw [if_neg hprior] at hacc
            exact (Option.some.injEq _ _).mp hacc.symm

/-- The discount widget never performs a write call, on acceptance or on
any rejection. -/
theorem validate_noWrites (codes : List DiscountCodeRec)
    (uses : List DiscountUse) (userId entered : String) (now : Int)
    (subtotal : ℚ) :
    noWrites (validateAndApplyDiscount codes uses userId entered now subtotal).2 := by
  rw [validateAndApplyDiscount]
  by_cases hne : jsTrim entered = ""
  · rw [if_pos hne]; intro c hc; simp at hc
  · rw [if_neg hne]
    dsimp only
    cases hl : lookupActiveCode codes entered with
    | none => intro c hc; simp at hc; rcases hc with rfl | rfl <;> rfl
    | some dc =>
      dsimp only
      by_cases hexp : isExpired now dc = true
      · rw [if_pos hexp]; intro c hc; simp at hc; rcases hc with rfl | rfl <;> rfl
      · rw [if_neg hexp]
        by_cases hmax : usesExhausted dc = true
        · rw [if_pos hmax]; intro c hc; simp at hc; rcases hc with rfl | rfl <;> rfl
        · rw [if_neg hmax]
          by_cases hmin : subtotal < dc.minimumOrderAmount
          · rw [if_pos hmin]; intro c hc; simp at hc; rcases hc with rfl | rfl <;> rfl
          · rw [if_neg hmin]
            by_cases hprior : priorUse uses dc.id userId = true
            · rw [if_pos hprior]
              intro c hc; simp at hc; rcases hc with rfl | rfl | rfl <;> rfl
            · rw [if_neg hprior]
              intro c hc; simp at hc; rcases hc with rfl | rfl | rfl <;> rfl

/-- C2: for every cart whose line items all pass stock re-validation
(snapshot consistent with the stored product and requested quantity
covered), with subtotal 100 and an applied 10 percent code accepted by
the widget, submitting checkout creates exactly one order whose total is
90, leaves zero cart rows for the user, creates exactly one order item
per distinct product of the cart, and reduces the stored stock of each
purchased product by the purchased quantity. -/
theorem checkout_scenario_postconditions (form : CheckoutForm)
    (cart : List CartItem) (ad : AppliedDiscount) (dc : DiscountCodeRec)
    (userId orderId entered : String) (now : Int) (st : Backend)
    (hform : validForm form = true)
    (hitems : ∀ item ∈ cart, ∃ snap p, item.product = some snap ∧
      st.products.find? (fun q => q.id == item.productId) = some p ∧
      p.stock_quantity = snap.stockQuantity ∧ item.quantity ≤ snap.stockQuantity)
    (hnd : (cart.map CartItem.productId).Nodup)
    (hsub : checkoutCalculateSubtotal cart = 100)
    (hlook : lookupActiveCode st.discountCodes entered = some dc)
    (hacc : (validateAndApplyDiscount st.discountCodes st.discountCodeUses
      userId entered now 100).1 = some ad.amount)
    (hpct : dc.discountType = DiscountType.percentage)
    (hval10 : dc.discountValue = 10)
    (hrows : ∀ r ∈ st.cartItems, r.user_id = userId → r.id ∈ cart.map CartItem.id)
    (hfresh : ∀ oi ∈ st.orderItems, ¬ oi.order_id = orderId) :
    (handleSubmit form cart (some ad) userId orderId st).1.orders =
        st.orders ++ [orderOf form cart (some ad) userId orderId] ∧
      (orderOf form cart (some ad) userId orderId).total_amount = 90 ∧
      (handleSubmit form cart (some ad) userId orderId st).1.cartItems.filter
        (fun r => r.user_id == userId) = [] ∧
      ((handleSubmit form cart (some ad) userId orderId st).1.orderItems.filter
        (fun oi => oi.order_id == orderId)).length = cart.length ∧
      (∀ item ∈ cart, ∀ snap, item.product = some snap →
        (handleSubmit form cart (some ad) userId orderId st).1.products.find?
            (fun q => q.id == item.productId) =
          (st.products.find? (fun q => q.id == item.productId)).map
            (fun p => { p with stock_quantity := p.stock_quantity - item.quantity })) := by
  have hamt : ad.amount = 10 := by
    have h := widget_accept_amount hlook hacc
    rw [h, rawDiscount, hpct, hval10]
    norm_num
  have hvz : (stockValidation cart st).1 = 0 := by
    apply stockValidation_zero
    intro item hmem
    obtain ⟨snap, p, hsnap, hf, hps, hq⟩ := hitems item hmem
    exact ⟨snap, p, hsnap, hf, by rw [hps]; exact hq⟩
  obtain ⟨hs1, hs2, hs3, hs4⟩ :=
    handleSubmit_success form cart (some ad) userId orderId st hform hvz
  refine ⟨hs1, ?_, ?_, ?_, ?_⟩
  · rw [orderOf]
    dsimp only
    rw [hsub]
    show max 0 (100 - ad.amount) = 90
    rw [hamt]
    norm_num
  · rw [hs4, List.filter_filter]
    rw [List.filter_eq_nil_iff]
    intro r hr
    by_cases hu : r.user_id = userId
    · have hid := hrows r hr hu
      have hcont : ((cart.map CartItem.id).contains r.id) = true :=
        List.elem_eq_true_of_mem hid
      intro hc
      rw [Bool.and_eq_true, hcont] at hc
      simp at hc
    · intro hc
      rw [Bool.and_eq_true] at hc
      exact hu (beq_iff_eq.mp hc.1)
  · rw [hs2, List.filter_append]
    have hold : st.orderItems.filter (fun oi => oi.order_id == orderId) = [] := by
      rw [List.filter_eq_nil_iff]
      intro oi hoi
      simp [beq_eq_false_iff_ne.mpr (hfresh oi hoi)]
    have hnew : (cart.map (mkOrderItem orderId)).filter
        (fun oi => oi.order_id == orderId) = cart.map (mkOrderItem orderId) := by
      rw [List.filter_eq_self]
      intro oi hoi
      obtain ⟨item, _, rfl⟩ := List.mem_map.mp hoi
      simp [mkOrderItem]
    rw [hold, hnew, List.nil_append, List.length_map]
  · intro item hmem snap hsnap
    rw [hs3]
    rw [applyStockUpdates_find cart st.products item snap hmem hsnap hnd]
    obtain ⟨snap2, p, hsnap2, hf, hps, hq⟩ := hitems item hmem
    have hseq : snap2 = snap := by
      rw [hsnap] at hsnap2
      exact (Option.some.injEq _ _).mp hsnap2.symm
    subst hseq
    rw [hf]
    have hmax : max 0 (snap2.stockQuantity - item.quantity) =
        snap2.stockQuantity - item.quantity := by
      apply max_eq_right
      omega
    simp only [Option.map_some']
    rw [hmax, hps]

/-- Witness for C2: one cart row of one 100 pound product with the 10
percent code applied yields an order total of 90 and an empty cart for
the buyer. -/
theorem checkout_scenario_postconditions_witness :
    (orderOf filledForm [cartItemOne]
        (some { code := "SAVE10", amount := 10, description := "10 percent off" })
        "buyer1" "o1").total_amount = 90 ∧
      (handleSubmit filledForm [cartItemOne]
          (some { code := "SAVE10", amount := 10, description := "10 percent off" })
          "buyer1" "o1" checkoutBackend).1.cartItems.filter
        (fun r => r.user_id == "buyer1") = [] := by
  have h := checkout_scenario_postconditions filledForm [cartItemOne]
    { code := "SAVE10", amount := 10, description := "10 percent off" }
    tenPercentCode "buyer1" "o1" "SAVE10" 0 checkoutBackend
    (by decide)
    (by
      intro item hmem
      rw [List.mem_singleton] at hmem
      subst hmem
      exact ⟨mapProduct productOne, productOne, rfl, rfl, rfl, by decide⟩)
    (by decide)
    (by norm_num [checkoutCalculateSubtotal, cartItemOne, mapProduct, productOne])
    rfl
    (by
      rw [validateAndApplyDiscount, if_neg (by decide)]
      dsimp only
      have hl : lookupActiveCode checkoutBackend.discountCodes "SAVE10" =
          some tenPercentCode := rfl
      rw [hl]
      dsimp only
      rw [if_neg (by decide), if_neg (by decide),
        if_neg (by norm_num [tenPercentCode]), if_neg (by decide)]
      dsimp only
      norm_num [rawDiscount, tenPercentCode])
    rfl
    rfl
    (by decide)
    (by decide)
  exact ⟨h.2.1, h.2.2.1⟩

/-- C10: for every line item processed at checkout, the stock written
back to its product is max 0 (snapshot stock minus purchased quantity),
computed from the cart-loaded snapshot, so the write is never negative,
even when the purchased quantity exceeds the snapshot stock. -/
theorem stock_write_clamped_nonneg (form : CheckoutForm) (cart : List CartItem)
    (applied : Option AppliedDiscount) (userId orderId : String) (st : Backend)
    (hform : validForm form = true)
    (hitems : ∀ item ∈ cart, ∃ snap p, item.product = some snap ∧
      st.products.find? (fun q => q.id == item.productId) = some p ∧
      item.quantity ≤ p.stock_quantity)
    (hnd : (cart.map CartItem.productId).Nodup) :
    ∀ item ∈ cart, ∀ snap, item.product = some snap →
      (handleSubmit form cart applied userId orderId st).1.products.find?
          (fun q => q.id == item.productId) =
        (st.products.find? (fun q => q.id == item.productId)).map
          (fun p =>
            { p with stock_quantity := max 0 (snap.stockQuantity - item.quantity) }) ∧
      (∀ q, (handleSubmit form cart applied userId orderId st).1.products.find?
          (fun p => p.id == item.productId) = some q → 0 ≤ q.stock_quantity) := by
  have hvz : (stockValidation cart st).1 = 0 := stockValidation_zero cart st hitems
  obtain ⟨-, -, hs3, -⟩ :=
    handleSubmit_success form cart applied userId orderId st hform hvz
  intro item hmem snap hsnap
  have hfind :
      (handleSubmit form cart applied userId orderId st).1.products.find?
          (fun q => q.id == item.productId) =
        (st.products.find? (fun q => q.id == item.productId)).map
          (fun p =>
            { p with stock_quantity := max 0 (snap.stockQuantity - item.quantity) }) := by
    rw [hs3]
    exact applyStockUpdates_find cart st.products item snap hmem hsnap hnd
  refine ⟨hfind, ?_⟩
  intro q hq
  rw [hfind] at hq
  obtain ⟨snap2, p, _, hf, _⟩ := hitems item hmem
  rw [hf] at hq
  simp only [Option.map_some'] at hq
  have hqe : q = { p with stock_quantity := max 0 (snap.stockQuantity - item.quantity) } :=
    ((Option.some.injEq _ _).mp hq).symm
  rw [hqe]
  exact le_max_left 0 _

/-- Witness for C10: a snapshot of one unit, two units requested and
three fresh units in stock passes re-validation and writes stock zero
rather than a negative value. -/
theorem stock_write_clamped_nonneg_witness :
    (handleSubmit filledForm [staleItemTwo] none "buyer1" "o2"
        staleBackend).1.products.find? (fun q => q.id == staleItemTwo.productId) =
      some { productTwo with stock_quantity := 0 } := by
  have h := stock_write_clamped_nonneg filledForm [staleItemTwo] none "buyer1"
    "o2" staleBackend (by decide)
    (by
      intro item hmem
      rw [List.mem_singleton] at hmem
      subst hmem
      exact ⟨{ mapProduct productTwo with stockQuantity := 1 }, productTwo,
        rfl, rfl, by decide⟩)
    (by decide)
  have h2 := (h staleItemTwo (List.mem_singleton.mpr rfl)
    { mapProduct productTwo with stockQuantity := 1 } rfl).1
  rw [h2]
  decide

/-- C7 counterexample: an insufficient-stock checkout leaves the backend
unchanged but its rejection is reached only after network calls (the auth
read and the product re-fetch), so the claim that every validation
failure short-circuits before any network call is false. -/
theorem validation_failure_makes_network_calls :
    (handleSubmit filledForm [lowItem] none "buyer1" "o3" lowBackend).1 =
        lowBackend ∧
      (handleSubmit filledForm [lowItem] none "buyer1" "o3" lowBackend).2 ≠ [] := by
  constructor
  · decide
  · decide

/-- C7 amended: every local validation failure (empty required checkout
fields or failed stock re-validation) returns with the backend state
unchanged and no write call performed, the empty-field failure before any
call at all; discount-code rejections likewise perform only reads, since
the widget never writes. -/
theorem validation_failure_no_write (form : CheckoutForm) (cart : List CartItem)
    (applied : Option AppliedDiscount) (userId orderId : String) (st : Backend)
    (codes : List DiscountCodeRec) (uses : List DiscountUse)
    (uid2 entered : String) (now : Int) (subtotal : ℚ)
    (hfail : validForm form = false ∨ 0 < (stockValidation cart st).1) :
    (handleSubmit form cart applied userId orderId st).1 = st ∧
      noWrites (handleSubmit form cart applied userId orderId st).2 ∧
      noWrites (validateAndApplyDiscount codes uses uid2 entered now subtotal).2 := by
  refine ⟨?_, ?_, validate_noWrites codes uses uid2 entered now subtotal⟩
  · by_cases hform : validForm form = true
    · rcases hfail with hf | hf
      · rw [hform] at hf; cases hf
      · have hni : (!validForm form) = false := by rw [hform]; rfl
        rw [handleSubmit, hni]
        simp only [Bool.false_eq_true, if_false]
        rw [if_pos hf]
    · have hvf : validForm form = false := by
        revert hform
        cases validForm form <;> simp
      have hni : (!validForm form) = true := by rw [hvf]; rfl
      rw [handleSubmit, hni]
      simp only [if_true]
  · by_cases hform : validForm form = true
    · rcases hfail with hf | hf
      · rw [hform] at hf; cases hf
      · have hni : (!validForm form) = false := by rw [hform]; rfl
        rw [handleSubmit, hni]
        simp only [Bool.false_eq_true, if_false]
        rw [if_pos hf]
        intro c hc
        rcases List.mem_cons.mp hc with rfl | hc2
        · rfl
        · rw [stockValidation_trace cart st c hc2]; rfl
    · have hvf : validForm form = false := by
        revert hform
        cases validForm form <;> simp
      have hni : (!validForm form) = true := by rw [hvf]; rfl
      rw [handleSubmit, hni]
      simp only [if_true]
      intro c hc
      simp at hc

/-- Witness for C7 amended: a blank first name leaves the backend
unchanged with no write, and a rejected code entry performs no write. -/
theorem validation_failure_no_write_witness :
    (handleSubmit emptyNameForm [cartItemOne] none "buyer1" "o4"
        checkoutBackend).1 = checkoutBackend ∧
      noWrites (handleSubmit emptyNameForm [cartItemOne] none "buyer1" "o4"
        checkoutBackend).2 ∧
      noWrites (validateAndApplyDiscount [tenPercentCode] [] "buyer1" "BAD" 0
        100).2 :=
  validation_failure_no_write emptyNameForm [cartItemOne] none "buyer1" "o4"
    checkoutBackend [tenPercentCode] [] "buyer1" "BAD" 0 100 (Or.inl (by decide))

end Marketplace
